import Mathlib

/-!
Verification development for the deepin-term-agent repository.

The Lean definitions below are a shallow embedding of the Python source:

* `src/deepin_term_agent/mcp/client.py` — the MCP protocol client
  (`MCPClient`): connection state, request/response correlation via a
  pending-request table keyed by stringified message ids, per-request
  timeout handling, disconnect, and tool listing.
* `src/deepin_term_agent/agent/agent.py` — the tool executor
  (`ToolExecutor.execute_tool`, `ToolExecutor.list_tools`) and the
  conversation loop (`TerminalAgent.process_message`,
  `TerminalAgent._handle_llm_command`).
* `src/deepin_term_agent/tools/builtin.py` — the `BUILTIN_TOOLS`
  registry (names and descriptions; the schema payloads and the leaf
  handlers are external collaborators and enter the model as opaque
  `JsonV` values and handler oracles).

Python `Any` / JSON values are modelled by the `JsonV` tree.  Awaitable
behaviour of the environment (when and how a pending future is resolved)
is modelled by explicit outcome parameters (`SendOutcome`), and the
`websockets` transport by a handle with an open/closed flag.  A ghost
field `sent` logs every envelope actually written to the transport so
that "nothing was sent" claims are expressible.
-/

/-- JSON-like value tree standing in for Python `Any` payloads
(`params`, `result`, tool arguments, input schemas). -/
inductive JsonV where
  | null : JsonV
  | bool (b : Bool) : JsonV
  | num (n : Int) : JsonV
  | str (s : String) : JsonV
  | arr (elems : List JsonV) : JsonV
  | obj (fields : List (String × JsonV)) : JsonV

/-- `MCPMessage` from `mcp/client.py`: the protocol envelope.  `id` is the
stringified message counter; requests carry `method`/`params`, responses
carry `result` or `error`. -/
structure MCPMessage where
  jsonrpc : String := "2.0"
  id : Option String := none
  method : Option String := none
  params : Option JsonV := none
  result : Option JsonV := none
  error : Option JsonV := none

/-- `MCPTool` from `mcp/client.py`: a discovered remote tool. -/
structure MCPTool where
  name : String
  description : String
  inputSchema : JsonV

/-- The websocket transport handle (`websockets` connection), reduced to
its open/closed observable. -/
structure WSConn where
  isOpen : Bool

/-- Errors raised inside the client, mirroring the Python exceptions:
`RuntimeError("Not connected to MCP server")`, `asyncio.TimeoutError`,
the exception built from a response's `error` field, and the
`ConnectionClosed` condition the specification speaks about (never
constructed by the source). -/
inductive MCPError where
  | runtime (msg : String) : MCPError
  | timeout : MCPError
  | server (msg : String) : MCPError
  | connectionClosed : MCPError

/-- State of one `asyncio.Future` held in the pending-request table:
still pending, resolved with a result, or resolved with an exception. -/
inductive FutureStatus where
  | pending : FutureStatus
  | ok (v : JsonV) : FutureStatus
  | err (e : MCPError) : FutureStatus

/-- State of an `MCPClient` instance (`mcp/client.py`, `__init__`):
transport handle, `connected` flag, cached tool catalog, message-id
counter and the pending-request table keyed by stringified ids.
`sent` is a ghost log of every envelope written to the transport. -/
structure MCPState where
  websocket : Option WSConn
  connected : Bool
  tools : List MCPTool
  messageId : Nat
  pending : List (String × FutureStatus)
  sent : List MCPMessage

/-- `dict.pop(key, None)`: drop the entry for `key` from the table. -/
def popKey (table : List (String × FutureStatus)) (key : String) :
    List (String × FutureStatus) :=
  table.eraseP (fun p => p.1 == key)

/-- The fixed per-request deadline: `asyncio.wait_for(future, timeout=30.0)`. -/
def REQUEST_TIMEOUT : Nat := 30

/-- How the environment treats one request: `websocket.send` raises;
or the future is resolved at time `t` with a result (`set_result`) /
an exception (`set_exception`); or no response ever arrives. -/
inductive SendOutcome where
  | sendRaise (msg : String) : SendOutcome
  | resolvedAt (t : Nat) (r : Except String JsonV) : SendOutcome
  | noResponse : SendOutcome

/-- `MCPClient._send_request`: fail when no transport is attached;
otherwise allocate the next stringified id, register a pending future,
send the envelope, await the future for `REQUEST_TIMEOUT` units, and in
a `finally` block pop the id from the pending table.  The environment's
behaviour is the explicit `outcome` argument; a future resolved at or
after the deadline is indistinguishable from no response
(`asyncio.TimeoutError`). -/
def send_request (s : MCPState) (method : String) (params : JsonV)
    (outcome : SendOutcome) : Except MCPError JsonV × MCPState :=
  match s.websocket with
  | none => (.error (.runtime "Not connected to MCP server"), s)
  | some _ =>
    let messageId := toString s.messageId
    let msg : MCPMessage :=
      { id := some messageId, method := some method, params := some params }
    let s1 : MCPState :=
      { s with
        messageId := s.messageId + 1
        pending := (messageId, FutureStatus.pending) :: s.pending }
    let sAfterSend : MCPState :=
      { s1 with sent := s1.sent ++ [msg], pending := popKey s1.pending messageId }
    let sSendFailed : MCPState :=
      { s1 with pending := popKey s1.pending messageId }
    match outcome with
    | .sendRaise m => (.error (.runtime m), sSendFailed)
    | .resolvedAt t r =>
      if t < REQUEST_TIMEOUT then
        match r with
        | .ok v => (.ok v, sAfterSend)
        | .error m => (.error (.server m), sAfterSend)
      else
        (.error .timeout, sAfterSend)
    | .noResponse => (.error .timeout, sAfterSend)

/-- `MCPClient.disconnect`: when a transport handle exists, close it and
clear the `connected` flag; the handle itself stays attached and the
pending-request table is not touched. -/
def disconnect (s : MCPState) : MCPState :=
  match s.websocket with
  | some ws =>
    { s with websocket := some { ws with isOpen := false }, connected := false }
  | none => s

/-- `MCPClient.call_tool`: guard on the `connected` flag, then delegate
to `_send_request "tools/call"` with the tool name and arguments. -/
def call_tool (s : MCPState) (toolName : String) (arguments : JsonV)
    (outcome : SendOutcome) : Except MCPError JsonV × MCPState :=
  if s.connected then
    send_request s "tools/call"
      (JsonV.obj [("name", JsonV.str toolName), ("arguments", arguments)])
      outcome
  else
    (.error (.runtime "Not connected to MCP server"), s)

/-- `MCPClient.get_tool`: first catalog entry with the given name. -/
def get_tool (s : MCPState) (name : String) : Option MCPTool :=
  s.tools.find? (fun t => t.name == name)

/-- The observable actions performed by `MCPClient.connect`, in source
order: attach the transport (`websockets.connect`), issue the handshake
and catalog-fetch requests through `_send_request`, then set the
`connected` flag.  `connect` schedules no task: `_handle_messages` is
defined in the class but `asyncio.create_task` / `ensure_future` appear
nowhere in the source. -/
inductive ConnectStep where
  | wsConnect : ConnectStep
  | sendReq (method : String) : ConnectStep
  | spawnListenerTask : ConnectStep
  | setConnectedTrue : ConnectStep
  deriving DecidableEq

/-- Transliteration of the body of `MCPClient.connect` as its sequence
of observable steps. -/
def connectSteps : List ConnectStep :=
  [ConnectStep.wsConnect, ConnectStep.sendReq "initialize",
   ConnectStep.sendReq "tools/list", ConnectStep.setConnectedTrue]

/-! ## Tool executor (`agent/agent.py`) -/

/-- The keys of the `BUILTIN_TOOLS` registry (`tools/builtin.py`), in
declaration order. -/
def builtinToolNames : List String :=
  ["run_command", "read_file", "write_file", "read_logs", "list_directory"]

/-- One entry of `ToolExecutor.mcp_clients`: a server name mapped to its
connected client, of which dispatch only consults the cached tool list. -/
structure ServerConn where
  name : String
  tools : List MCPTool

/-- Where `ToolExecutor.execute_tool` routes a name: to a built-in
handler, or to a named server's client with the (possibly stripped)
remote tool name. -/
inductive Dispatch where
  | builtin (name : String) : Dispatch
  | remote (server : String) (toolName : String) : Dispatch
  deriving DecidableEq

/-- Python `s.startswith(p)`: code-point-level test, via the underlying
character lists. -/
def strStartsWith (s p : String) : Bool :=
  p.data.isPrefixOf s.data

/-- Python `s[n:]`: drop the first `n` code points. -/
def strDrop (s : String) (n : Nat) : String :=
  ⟨s.data.drop n⟩

/-- Name resolution of `ToolExecutor.execute_tool` (`agent/agent.py`
lines 77–97): (1) exact membership in `BUILTIN_TOOLS`; (2) first server
for which `tool_name.startswith(server_name + ".")`, dispatched with
`tool_name[len(server_name) + 1:]`; (3) first server whose cached
catalog holds the bare name (`client.get_tool`); otherwise
`ValueError("Tool not found: <name>")`. -/
def resolveTool (servers : List ServerConn) (toolName : String) :
    Except String Dispatch :=
  if builtinToolNames.contains toolName then
    .ok (.builtin toolName)
  else
    match servers.find? (fun c => strStartsWith toolName (c.name ++ ".")) with
    | some c => .ok (.remote c.name (strDrop toolName (c.name.length + 1)))
    | none =>
      match servers.find?
          (fun c => (c.tools.find? (fun t => t.name == toolName)).isSome) with
      | some c => .ok (.remote c.name toolName)
      | none => .error ("Tool not found: " ++ toolName)

/-- `ToolExecutor.execute_tool` composed with the invocation itself: the
built-in handlers and remote calls are external collaborators, passed as
oracles returning either a payload or a raised exception.  The dispatcher
body contains no `try`: whatever the handler or the remote call raises
leaves `execute_tool` unchanged. -/
def execute_tool (runBuiltin : String → JsonV → Except String JsonV)
    (callRemote : String → String → JsonV → Except String JsonV)
    (servers : List ServerConn) (toolName : String) (arguments : JsonV) :
    Except String JsonV :=
  match resolveTool servers toolName with
  | .ok (.builtin n) => runBuiltin n arguments
  | .ok (.remote srv n) => callRemote srv n arguments
  | .error e => .error e

/-- One catalog row produced by `ToolExecutor.list_tools`: the
advertised name, the human description and the origin (`"builtin"`, or
`"mcp"` plus the server).  The schema payload is carried verbatim from
the source dictionaries and plays no role in any claim, so it is elided
here. -/
structure CatalogEntry where
  name : String
  description : String
  kind : String
  server : Option String

/-- The five rows `ToolExecutor.list_tools` emits for `BUILTIN_TOOLS`,
names and descriptions copied from `tools/builtin.py`. -/
def builtinCatalog : List CatalogEntry :=
  [⟨"run_command", "Execute shell commands", "builtin", none⟩,
   ⟨"read_file", "Read file contents", "builtin", none⟩,
   ⟨"write_file", "Write content to files", "builtin", none⟩,
   ⟨"read_logs", "Read log files with filtering", "builtin", none⟩,
   ⟨"list_directory", "List directory contents", "builtin", none⟩]

/-- The qualified name `f"{server_name}.{tool.name}"` built at line 66
of `agent/agent.py`. -/
def qualName (server tool : String) : String :=
  server ++ "." ++ tool

/-- `ToolExecutor.list_tools` (`agent/agent.py` lines 47–75): built-in
rows first, then for each connected server every cached tool under the
qualified name `"<serverName>.<toolName>"`.  No collision check of any
kind is performed; rows are appended unconditionally. -/
def list_tools_merged (servers : List ServerConn) : List CatalogEntry :=
  builtinCatalog ++
    servers.flatMap (fun c =>
      c.tools.map (fun t =>
        ⟨qualName c.name t.name, t.description, "mcp", some c.name⟩))

/-- The qualified names of a merged catalog. -/
def catalogNames (servers : List ServerConn) : List String :=
  (list_tools_merged servers).map (fun e => e.name)

/-- The server names, in `mcp_clients` iteration order.  They are the
keys of a Python dict, hence pairwise distinct in any real state. -/
def serverNamesOf (servers : List ServerConn) : List String :=
  servers.map (fun c => c.name)

/-- The cached tool names of one server. -/
def toolNamesOf (c : ServerConn) : List String :=
  c.tools.map (fun t => t.name)

/-- Just the remote rows' qualified names. -/
def remoteQualNames (servers : List ServerConn) : List String :=
  servers.flatMap (fun c => (toolNamesOf c).map (qualName c.name))

/-! ## Conversation loop (`agent/agent.py`, `TerminalAgent`) -/

/-- Role of a `ConversationTurn`. -/
inductive Role where
  | user : Role
  | assistant : Role
  deriving DecidableEq

/-- One entry of `TerminalAgent.conversation_history`. -/
structure Turn where
  role : Role
  content : String
  deriving DecidableEq

/-- The slice `self.conversation_history[-10:-1] if len(...) > 1 else []`
from `TerminalAgent._handle_llm_command` (line 297): at most the last
nine turns that precede the turn appended last. -/
def recentWindow (history : List Turn) : List Turn :=
  if history.length > 1 then (history.drop (history.length - 10)).dropLast
  else []

/-- `TerminalAgent.process_message` on the LLM path (lines 157–171):
append the user turn, let `_handle_llm_command` produce the reply from
the system prompt, the bounded recent window and the new message (the
whole of `_handle_llm_command` never touches the history and is modelled
by the oracle `handle`), then append the assistant turn and return the
reply. -/
def process_message (history : List Turn) (message : String)
    (handle : List Turn → String → String) : String × List Turn :=
  let h1 := history ++ [⟨Role.user, message⟩]
  let response := handle (recentWindow h1) message
  (response, h1 ++ [⟨Role.assistant, response⟩])

/-- The per-tool-call loop body of `TerminalAgent._handle_llm_command`
(lines 313–338): run the tool through the executor; a success is
formatted by the per-tool formatter selected at lines 321–333 (modelled
by the oracle `fmt`), an exception is caught and rendered as the line
built at line 338. -/
def formatToolOutcome (exec : String → JsonV → Except String JsonV)
    (fmt : String → JsonV → String) (call : String × JsonV) : String :=
  match exec call.1 call.2 with
  | .ok v => fmt call.1 v
  | .error e => "Error executing " ++ call.1 ++ ": " ++ e

/-- The whole tool-call loop: one formatted string per requested call,
in request order (`results.append` inside the `for`). -/
def runToolCalls (exec : String → JsonV → Except String JsonV)
    (fmt : String → JsonV → String) (calls : List (String × JsonV)) :
    List String :=
  calls.map (formatToolOutcome exec fmt)

/-! ## Reference heap for `MCPClient.list_tools` copy semantics -/

/-- A minimal heap of Python list objects holding `MCPTool` values:
`store` maps a reference to its current contents, `next` is the next
fresh reference. -/
structure ToolHeap where
  store : Nat → List MCPTool
  next : Nat

/-- A client as seen through the heap: `self.tools` is a reference. -/
structure ClientRef where
  toolsRef : Nat

/-- `MCPClient.list_tools`: `return self.tools.copy()` — allocate a
fresh list object holding the same elements and return its reference. -/
def list_tools_copy (c : ClientRef) (h : ToolHeap) : Nat × ToolHeap :=
  (h.next,
   { store := fun r => if r = h.next then h.store c.toolsRef else h.store r,
     next := h.next + 1 })

/-- In-place mutation of the list object behind reference `r` (what a
caller may do to the value `list_tools` returned). -/
def mutateList (h : ToolHeap) (r : Nat) (f : List MCPTool → List MCPTool) :
    ToolHeap :=
  { h with store := fun r2 => if r2 = r then f (h.store r2) else h.store r2 }

/-! ## Concrete fixtures used by witnesses and counterexamples -/

/-- An open transport handle. -/
def wsOpen : WSConn := ⟨true⟩

/-- A remote tool as cached after discovery. -/
def sampleTool : MCPTool := ⟨"echo", "Echo a string", JsonV.null⟩

/-- A freshly handshaken client with no request in flight. -/
def stateIdle : MCPState := ⟨some wsOpen, true, [], 0, [], []⟩

/-- A connected client with one outstanding request of id `"0"`. -/
def stateWithPending : MCPState :=
  ⟨some wsOpen, true, [], 1, [("0", FutureStatus.pending)], []⟩

/-- A client that never attached a transport. -/
def stateDetached : MCPState := ⟨none, false, [], 0, [], []⟩

/-- A built-in handler that raises on every input. -/
def raisingHandler : String → JsonV → Except String JsonV :=
  fun _ _ => .error "boom"

/-- A remote-call oracle that is never reached in the scenarios below. -/
def unusedRemote : String → String → JsonV → Except String JsonV :=
  fun _ _ _ => .error "unused"

/-- A success formatter standing in for the per-tool formatters. -/
def plainFmt : String → JsonV → String :=
  fun n _ => "Tool " ++ n ++ " executed successfully"

/-- A reply oracle for the conversation loop. -/
def constReply : List Turn → String → String :=
  fun _ _ => "ok"

/-- Three consecutive requests, none of which is ever answered. -/
def threeRequests : List (String × JsonV × SendOutcome) :=
  [("tools/call", JsonV.null, SendOutcome.noResponse),
   ("tools/call", JsonV.null, SendOutcome.noResponse),
   ("tools/call", JsonV.null, SendOutcome.noResponse)]

/-- Two servers whose names and per-server tool names are distinct and
dot-free. -/
def goodServers : List ServerConn :=
  [⟨"srv", [sampleTool]⟩, ⟨"alt", [sampleTool]⟩]

/-- Two servers exhibiting the qualified-name collision: `"a"` exposing
tool `"b.c"` and `"a.b"` exposing tool `"c"` both advertise the
qualified name `"a.b.c"`. -/
def collidingServers : List ServerConn :=
  [⟨"a", [⟨"b.c", "first", JsonV.null⟩]⟩, ⟨"a.b", [⟨"c", "second", JsonV.null⟩]⟩]

/-- A list mutation a caller might apply to what `list_tools` returned. -/
def exampleMutation : List MCPTool → List MCPTool :=
  fun l => sampleTool :: l

/-- An initial heap: the client's catalog lives at reference 0. -/
def heap0 : ToolHeap := ⟨fun _ => [], 1⟩

/-- The client seen through `heap0`. -/
def client0 : ClientRef := ⟨0⟩

/-- `send_many`: issue a sequence of `_send_request` calls back to back,
recording the value of the message-id counter at each issue point (the
id the request carries on the wire, stringified). -/
def send_many (s : MCPState) (reqs : List (String × JsonV × SendOutcome)) :
    List Nat × MCPState :=
  match reqs with
  | [] => ([], s)
  | r :: rest =>
    let s1 := (send_request s r.1 r.2.1 r.2.2).2
    let tail := send_many s1 rest
    (s.messageId :: tail.1, tail.2)

/-! ## Supporting lemmas -/

/-- Popping the key just pushed removes exactly that entry. -/
theorem popKey_cons_self (k : String) (v : FutureStatus)
    (l : List (String × FutureStatus)) : popKey ((k, v) :: l) k = l := by
  simp [popKey]

/-- `_send_request` with no transport attached raises before touching
any state. -/
theorem send_request_detached (s : MCPState) (method : String)
    (params : JsonV) (outcome : SendOutcome) (hws : s.websocket = none) :
    send_request s method params outcome =
      (.error (.runtime "Not connected to MCP server"), s) := by
  simp [send_request, hws]

/-- With a transport attached, `_send_request` always restores the
pending table (the `finally` pop), never touches the transport handle,
and bumps the id counter by exactly one. -/
theorem send_request_state (s : MCPState) (method : String) (params : JsonV)
    (outcome : SendOutcome) (ws : WSConn) (hws : s.websocket = some ws) :
    ((send_request s method params outcome).2).pending = s.pending ∧
    ((send_request s method params outcome).2).websocket = s.websocket ∧
    ((send_request s method params outcome).2).messageId = s.messageId + 1 := by
  cases outcome with
  | sendRaise m =>
    simp [send_request, hws, popKey_cons_self]
  | resolvedAt t r =>
    by_cases ht : t < REQUEST_TIMEOUT
    · cases r <;> simp [send_request, hws, ht, popKey_cons_self]
    · simp [send_request, hws, ht, popKey_cons_self]
  | noResponse =>
    simp [send_request, hws, popKey_cons_self]

/-! ## Claims -/

/-- Claim C1: the specification requires a single background listener
task reading incoming envelopes for the connection lifetime.  The body
of `MCPClient.connect` performs exactly the steps of `connectSteps`:
it never schedules `_handle_messages` (no `asyncio.create_task` or
`ensure_future` exists anywhere in the source), so no listener task is
ever started and no pending future can ever be resolved. -/
theorem connect_spawns_no_listener :
    ConnectStep.spawnListenerTask ∉ connectSteps := by
  decide

/-- Claim C2 counterexample: a client with one outstanding request of id
`"0"` on which `disconnect()` is invoked.  The pending entry is left
exactly as it was — still pending, hence not failed with
`ConnectionClosed` (nor with anything else). -/
theorem disconnect_ignores_pending :
    (disconnect stateWithPending).pending = [("0", FutureStatus.pending)] ∧
    List.lookup "0" (disconnect stateWithPending).pending =
      some FutureStatus.pending :=
  ⟨rfl, rfl⟩

/-- Claim C2 (amended): `disconnect()` closes the transport and clears
the `connected` flag when a transport is attached, leaves the
pending-request table, the catalog and the id counter untouched (the
outstanding calls are instead each failed by their own 30-unit timeout),
is a no-op without a transport, and is idempotent on the observable
state. -/
theorem disconnect_amended (s : MCPState) :
    (disconnect s).pending = s.pending ∧
    (disconnect s).tools = s.tools ∧
    (disconnect s).messageId = s.messageId ∧
    disconnect (disconnect s) = disconnect s ∧
    (s.websocket.isSome = true →
      (disconnect s).connected = false ∧ (disconnect s).websocket = some ⟨false⟩) ∧
    (s.websocket = none → disconnect s = s) := by
  cases hws : s.websocket with
  | none => simp [disconnect, hws]
  | some ws => simp [disconnect, hws]

/-- Witness for `disconnect_amended` at the client with one pending
request. -/
theorem disconnect_amended_witness :
    stateWithPending.websocket.isSome = true ∧
    (disconnect stateWithPending).connected = false ∧
    (disconnect stateWithPending).pending = stateWithPending.pending := by
  have h := disconnect_amended stateWithPending
  exact ⟨rfl, (h.2.2.2.2.1 rfl).1, h.1⟩

/-- Claim C3: whatever the environment does — send raising, a response
or error resolved before or after the deadline, or silence — the call
leaves the pending table exactly as it was before the call (the entry
for the allocated id is removed in the `finally` block), so no stale
entry for that id survives; and a call that sees no resolution before
the 30-unit deadline fails with the Timeout error. -/
theorem send_request_cleans_pending (s : MCPState) (method : String)
    (params : JsonV) (outcome : SendOutcome)
    (hws : s.websocket.isSome = true) :
    ((send_request s method params outcome).2).pending = s.pending ∧
    (List.lookup (toString s.messageId) s.pending = none →
      List.lookup (toString s.messageId)
        ((send_request s method params outcome).2).pending = none) ∧
    (send_request s method params SendOutcome.noResponse).1 =
      Except.error MCPError.timeout ∧
    (∀ t r, REQUEST_TIMEOUT ≤ t →
      (send_request s method params (SendOutcome.resolvedAt t r)).1 =
        Except.error MCPError.timeout) := by
  obtain ⟨ws, hws2⟩ := Option.isSome_iff_exists.mp hws
  have hstate := send_request_state s method params outcome ws hws2
  refine ⟨hstate.1, ?_, ?_, ?_⟩
  · intro h; rw [hstate.1]; exact h
  · simp [send_request, hws2]
  · intro t r htime
    have ht : ¬ t < REQUEST_TIMEOUT := by omega
    cases r <;> simp [send_request, hws2, ht]

/-- Witness for `send_request_cleans_pending`: a fresh client, one
unanswered call. -/
theorem send_request_cleans_pending_witness :
    stateIdle.websocket.isSome = true ∧
    (send_request stateIdle "tools/call" JsonV.null SendOutcome.noResponse).1 =
      Except.error MCPError.timeout ∧
    ((send_request stateIdle "tools/call" JsonV.null
        SendOutcome.noResponse).2).pending = [] := by
  have h := send_request_cleans_pending stateIdle "tools/call" JsonV.null
      SendOutcome.noResponse rfl
  exact ⟨rfl, h.2.2.1, h.1⟩

/-- Claim C7: across any burst of consecutive requests on one connected
client, the ids carried by the requests are the consecutive values of
the message counter: pairwise fresh and strictly increasing in issue
order. -/
theorem send_many_fresh_ids (s : MCPState)
    (reqs : List (String × JsonV × SendOutcome))
    (hws : s.websocket.isSome = true) :
    (send_many s reqs).1 =
      (List.range reqs.length).map (fun i => s.messageId + i) ∧
    List.Pairwise (· < ·) (send_many s reqs).1 ∧
    (send_many s reqs).1.Nodup := by
  have hmain : ∀ (reqs : List (String × JsonV × SendOutcome)) (s : MCPState),
      s.websocket.isSome = true →
      (send_many s reqs).1 =
        (List.range reqs.length).map (fun i => s.messageId + i) := by
    intro reqs
    induction reqs with
    | nil => intro s _; simp [send_many]
    | cons r rest ih =>
      intro s hws
      obtain ⟨ws, hws2⟩ := Option.isSome_iff_exists.mp hws
      have hst := send_request_state s r.1 r.2.1 r.2.2 ws hws2
      have hws3 : ((send_request s r.1 r.2.1 r.2.2).2).websocket.isSome = true := by
        rw [hst.2.1, hws2]; rfl
      have htail := ih ((send_request s r.1 r.2.1 r.2.2).2) hws3
      have hstep : (send_many s (r :: rest)).1 =
          s.messageId :: (send_many ((send_request s r.1 r.2.1 r.2.2).2) rest).1 := by
        simp [send_many]
      rw [hstep, htail, hst.2.2, List.length_cons, List.range_succ_eq_map,
        List.map_cons, List.map_map]
      refine congrArg₂ List.cons (by omega) ?_
      exact List.map_congr_left (fun i _ => by simp [Function.comp]; omega)
  have hlt : List.Pairwise (· < ·) (send_many s reqs).1 := by
    rw [hmain reqs s hws]
    exact (List.pairwise_lt_range reqs.length).map _ (fun a b hab => by omega)
  exact ⟨hmain reqs s hws, hlt, hlt.imp (fun hab => Nat.ne_of_lt hab)⟩

/-- Witness for `send_many_fresh_ids`: three unanswered calls on a fresh
client carry ids 0, 1, 2. -/
theorem send_many_fresh_ids_witness :
    stateIdle.websocket.isSome = true ∧
    (send_many stateIdle threeRequests).1 = [0, 1, 2] := by
  refine ⟨rfl, ?_⟩
  rw [(send_many_fresh_ids stateIdle threeRequests rfl).1]
  decide

/-- Claim C10: `call_tool` refuses on a cleared `connected` flag without
touching anything, and `_send_request` refuses on an absent transport
before allocating an id, registering a pending entry or sending — in
both cases the returned state is the input state unchanged. -/
theorem connection_guards (s : MCPState) (toolName : String) (args : JsonV)
    (outcome : SendOutcome) :
    (s.connected = false →
      call_tool s toolName args outcome =
        (.error (.runtime "Not connected to MCP server"), s)) ∧
    (s.websocket = none → ∀ method params,
      send_request s method params outcome =
        (.error (.runtime "Not connected to MCP server"), s)) := by
  constructor
  · intro h; simp [call_tool, h]
  · intro h method params; exact send_request_detached s method params outcome h

/-- Witness for `connection_guards` at the never-connected client. -/
theorem connection_guards_witness :
    stateDetached.connected = false ∧
    call_tool stateDetached "echo" JsonV.null SendOutcome.noResponse =
      (Except.error (MCPError.runtime "Not connected to MCP server"),
        stateDetached) ∧
    stateDetached.websocket = none ∧
    send_request stateDetached "tools/list" JsonV.null SendOutcome.noResponse =
      (Except.error (MCPError.runtime "Not connected to MCP server"),
        stateDetached) := by
  have h := connection_guards stateDetached "echo" JsonV.null SendOutcome.noResponse
  exact ⟨rfl, h.1 rfl, rfl, h.2 rfl "tools/list" JsonV.null⟩

/-- `find?` returns the first element satisfying the predicate. -/
theorem find_first_match {α : Type} (p : α → Bool) (pre : List α) (c : α)
    (post : List α) (hpre : ∀ x ∈ pre, p x = false) (hc : p c = true) :
    (pre ++ c :: post).find? p = some c := by
  induction pre with
  | nil => simp [List.find?_cons_of_pos, hc]
  | cons a tl ih =>
    have ha : p a = false := hpre a (by simp)
    have htl := ih (fun x hx => hpre x (by simp [hx]))
    simpa [List.find?_cons_of_neg, ha] using htl

/-- Claim C4: `ToolExecutor.execute_tool` resolves a name in this exact
order — (1) exact match against `BUILTIN_TOOLS`; (2) first server in
iteration order whose `"<serverName>."` starts the name, the dispatch
carrying the name with that prefix stripped; (3) first server in
iteration order whose cached catalog holds the bare name; and any name
matching none of these fails with `ValueError` naming the exact input
string. -/
theorem execute_tool_resolution (servers : List ServerConn) (toolName : String) :
    (builtinToolNames.contains toolName = true →
      resolveTool servers toolName = .ok (.builtin toolName)) ∧
    (builtinToolNames.contains toolName = false →
      ∀ pre c post, servers = pre ++ c :: post →
        (∀ x ∈ pre, strStartsWith toolName (x.name ++ ".") = false) →
        strStartsWith toolName (c.name ++ ".") = true →
        resolveTool servers toolName =
          .ok (.remote c.name (strDrop toolName (c.name.length + 1)))) ∧
    (builtinToolNames.contains toolName = false →
      (∀ x ∈ servers, strStartsWith toolName (x.name ++ ".") = false) →
      ∀ pre c post, servers = pre ++ c :: post →
        (∀ x ∈ pre, (x.tools.find? (fun t => t.name == toolName)).isSome = false) →
        (c.tools.find? (fun t => t.name == toolName)).isSome = true →
        resolveTool servers toolName = .ok (.remote c.name toolName)) ∧
    (builtinToolNames.contains toolName = false →
      (∀ x ∈ servers, strStartsWith toolName (x.name ++ ".") = false) →
      (∀ x ∈ servers, (x.tools.find? (fun t => t.name == toolName)).isSome = false) →
      resolveTool servers toolName = .error ("Tool not found: " ++ toolName)) := by
  refine ⟨?_, ?_, ?_, ?_⟩
  · intro h
    have hmem : toolName ∈ builtinToolNames := by simpa using h
    simp [resolveTool, hmem]
  · intro h pre c post hs hpre hc
    subst hs
    have hmem : toolName ∉ builtinToolNames := by simpa using h
    have hfind := find_first_match
      (fun x => strStartsWith toolName (x.name ++ ".")) pre c post hpre hc
    simp [resolveTool, hmem, hfind]
  · intro h hnopre pre c post hs hpre hc
    subst hs
    have hmem : toolName ∉ builtinToolNames := by simpa using h
    have hnone : ((pre ++ c :: post).find?
        (fun x => strStartsWith toolName (x.name ++ "."))) = none :=
      List.find?_eq_none.mpr (fun x hx => by simp [hnopre x hx])
    have hfind := find_first_match
      (fun x => (x.tools.find? (fun t => t.name == toolName)).isSome)
      pre c post hpre hc
    simp [resolveTool, hmem, hnone, hfind]
  · intro h hnopre hnoexact
    have hmem : toolName ∉ builtinToolNames := by simpa using h
    have hnone1 : (servers.find?
        (fun x => strStartsWith toolName (x.name ++ "."))) = none :=
      List.find?_eq_none.mpr (fun x hx => by simp [hnopre x hx])
    have hnone2 : (servers.find?
        (fun x => (x.tools.find? (fun t => t.name == toolName)).isSome)) = none :=
      List.find?_eq_none.mpr (fun x hx => by simp [hnoexact x hx])
    simp [resolveTool, hmem, hnone1, hnone2]

/-- Witness for `execute_tool_resolution`: the name `"srv.echo"` is not
built-in and carries the first server's prefix, so it is delegated to
server `"srv"` with the bare name `"echo"`. -/
theorem execute_tool_resolution_witness :
    builtinToolNames.contains "srv.echo" = false ∧
    resolveTool goodServers "srv.echo" =
      Except.ok (Dispatch.remote "srv" "echo") := by
  refine ⟨by decide, ?_⟩
  have h := (execute_tool_resolution goodServers "srv.echo").2.1 (by decide)
      [] ⟨"srv", [sampleTool]⟩ [⟨"alt", [sampleTool]⟩] rfl (by simp) (by decide)
  rw [h]
  rfl

/-- Claim C5 counterexample: a built-in handler that raises.  The
exception leaves `ToolExecutor.execute_tool` unconverted — the
dispatcher body has no `try` — so the caller receives the raised
exception, not a normalized failure result. -/
theorem execute_tool_propagates :
    execute_tool raisingHandler unusedRemote [] "run_command" JsonV.null =
      Except.error "boom" := rfl

/-- Claim C5 (amended): exceptions are caught one level above the
dispatcher, in the per-tool-call loop of
`TerminalAgent._handle_llm_command`: every requested call yields exactly
one formatted string, in request order; a raised exception is converted
into the `"Error executing <name>: <reason>"` line instead of
propagating, and a success is passed to the per-tool formatter. -/
theorem tool_loop_converts_failures (exec : String → JsonV → Except String JsonV)
    (fmt : String → JsonV → String) (calls : List (String × JsonV)) :
    (runToolCalls exec fmt calls).length = calls.length ∧
    (∀ pre call post, calls = pre ++ call :: post →
      runToolCalls exec fmt calls =
        runToolCalls exec fmt pre ++
          formatToolOutcome exec fmt call :: runToolCalls exec fmt post) ∧
    (∀ name args e, exec name args = Except.error e →
      formatToolOutcome exec fmt (name, args) =
        "Error executing " ++ name ++ ": " ++ e) ∧
    (∀ name args v, exec name args = Except.ok v →
      formatToolOutcome exec fmt (name, args) = fmt name v) := by
  refine ⟨by simp [runToolCalls], ?_, ?_, ?_⟩
  · intro pre call post h
    subst h
    simp [runToolCalls]
  · intro name args e h
    simp [formatToolOutcome, h]
  · intro name args v h
    simp [formatToolOutcome, h]

/-- Witness for `tool_loop_converts_failures`: the raising handler's
exception is rendered as an error line. -/
theorem tool_loop_converts_failures_witness :
    raisingHandler "run_command" JsonV.null = Except.error "boom" ∧
    formatToolOutcome raisingHandler plainFmt ("run_command", JsonV.null) =
      "Error executing run_command: boom" := by
  refine ⟨rfl, ?_⟩
  rw [(tool_loop_converts_failures raisingHandler plainFmt []).2.2.1
      "run_command" JsonV.null "boom" rfl]
  decide

/-- The slice `history[-10:-1]` right after a turn is appended is the
last nine turns of what the history held before the append. -/
theorem recentWindow_append (h : List Turn) (u : Turn) :
    recentWindow (h ++ [u]) = h.drop (h.length - 9) := by
  cases h with
  | nil => simp [recentWindow]
  | cons a t =>
    have hgt : ((a :: t) ++ [u]).length > 1 := by simp
    rw [recentWindow, if_pos hgt]
    rw [(by simp only [List.length_append, List.length_cons, List.length_nil]
           ; omega : ((a :: t) ++ [u]).length - 10 = (a :: t).length - 9)]
    rw [List.drop_append_eq_append_drop]
    have h0 : (a :: t).length - 9 - (a :: t).length = 0 := by omega
    rw [h0]
    simp

/-- Claim C8: processing one message appends exactly the user turn and
then the assistant turn carrying the returned reply, modifying nothing
that was already recorded; the model is consulted only with the bounded
window of at most the last nine preceding turns, which is a suffix of
the prior history — two reply oracles agreeing on that window produce
identical results. -/
theorem process_message_history (history : List Turn) (message : String)
    (handle handle2 : List Turn → String → String) :
    (process_message history message handle).2 =
      history ++ [⟨Role.user, message⟩,
        ⟨Role.assistant, (process_message history message handle).1⟩] ∧
    recentWindow (history ++ [⟨Role.user, message⟩]) =
      history.drop (history.length - 9) ∧
    (recentWindow (history ++ [⟨Role.user, message⟩])).length ≤ 9 ∧
    recentWindow (history ++ [⟨Role.user, message⟩]) <:+ history ∧
    (handle (recentWindow (history ++ [⟨Role.user, message⟩])) message =
        handle2 (recentWindow (history ++ [⟨Role.user, message⟩])) message →
      process_message history message handle =
        process_message history message handle2) := by
  have hwin := recentWindow_append history ⟨Role.user, message⟩
  refine ⟨by simp [process_message], hwin, ?_, ?_, ?_⟩
  · rw [hwin, List.length_drop]
    omega
  · rw [hwin]
    exact List.drop_suffix _ _
  · intro h
    simp [process_message, h]

/-- Witness for `process_message_history` on an empty session. -/
theorem process_message_history_witness :
    recentWindow [⟨Role.user, "hi"⟩] = [] ∧
    (process_message [] "hi" constReply).2 =
      [⟨Role.user, "hi"⟩,
        ⟨Role.assistant, (process_message [] "hi" constReply).1⟩] := by
  have h := process_message_history [] "hi" constReply constReply
  exact ⟨by simpa using h.2.1, by simpa using h.1⟩

/-- Claim C9: `MCPClient.list_tools` hands back a fresh copy of the
cached catalog: the call leaves the client's own list untouched, the
copy holds the same elements, any in-place mutation of the returned list
leaves the client's list as it was, and a second call returns a list
equal to the first. -/
theorem list_tools_copy_frame (c : ClientRef) (h : ToolHeap)
    (hwf : c.toolsRef < h.next) :
    ((list_tools_copy c h).2).store c.toolsRef = h.store c.toolsRef ∧
    ((list_tools_copy c h).2).store (list_tools_copy c h).1 =
      h.store c.toolsRef ∧
    (∀ f, (mutateList (list_tools_copy c h).2 (list_tools_copy c h).1 f).store
        c.toolsRef = h.store c.toolsRef) ∧
    ((list_tools_copy c (list_tools_copy c h).2).2).store
        (list_tools_copy c (list_tools_copy c h).2).1 =
      ((list_tools_copy c h).2).store (list_tools_copy c h).1 := by
  have hne : c.toolsRef ≠ h.next := Nat.ne_of_lt hwf
  refine ⟨?_, ?_, ?_, ?_⟩
  · simp [list_tools_copy, hne]
  · simp [list_tools_copy]
  · intro f
    simp [list_tools_copy, mutateList, hne]
  · simp [list_tools_copy, hne]

/-- Witness for `list_tools_copy_frame`: mutating the returned copy
leaves the catalog at reference 0 unchanged. -/
theorem list_tools_copy_frame_witness :
    client0.toolsRef < heap0.next ∧
    (mutateList (list_tools_copy client0 heap0).2
        (list_tools_copy client0 heap0).1 exampleMutation).store
      client0.toolsRef = heap0.store client0.toolsRef :=
  ⟨by decide,
   (list_tools_copy_frame client0 heap0 (by decide)).2.2.1 exampleMutation⟩

/-- Splitting a list at a separator element absent from both left parts
is unambiguous. -/
theorem sep_split_inj {α : Type} (c : α) :
    ∀ (xs xs2 ys ys2 : List α), c ∉ xs → c ∉ xs2 →
      xs ++ c :: ys = xs2 ++ c :: ys2 → xs = xs2 ∧ ys = ys2 := by
  intro xs
  induction xs with
  | nil =>
    intro xs2 ys ys2 _ h2 h
    cases xs2 with
    | nil => simpa using h
    | cons b tl =>
      simp only [List.nil_append, List.cons_append, List.cons.injEq] at h
      refine absurd ?_ h2
      rw [h.1]
      exact List.mem_cons_self b tl
  | cons a tl ih =>
    intro xs2 ys ys2 h1 h2 h
    cases xs2 with
    | nil =>
      simp only [List.nil_append, List.cons_append, List.cons.injEq] at h
      refine absurd ?_ h1
      rw [h.1]
      exact List.mem_cons_self c tl
    | cons b tl2 =>
      simp only [List.cons_append, List.cons.injEq] at h
      obtain ⟨h3, h4⟩ := ih tl2 ys ys2
        (fun hm => h1 (List.mem_cons_of_mem a hm))
        (fun hm => h2 (List.mem_cons_of_mem b hm)) h.2
      exact ⟨by rw [h.1, h3], h4⟩

/-- The character list of the dot literal. -/
theorem dot_data : (".").data = ['.'] := rfl

/-- The character list of a qualified name. -/
theorem qualName_data (s t : String) :
    (qualName s t).data = s.data ++ '.' :: t.data := by
  simp [qualName, String.data_append, dot_data]

/-- Every qualified name contains the dot separator. -/
theorem dot_mem_qualName (s t : String) : ('.' : Char) ∈ (qualName s t).data := by
  rw [qualName_data]
  simp

/-- Qualified names built from dot-free server names decompose
uniquely. -/
theorem qualName_inj {s1 s2 t1 t2 : String}
    (h1 : ('.' : Char) ∉ s1.data) (h2 : ('.' : Char) ∉ s2.data)
    (h : qualName s1 t1 = qualName s2 t2) : s1 = s2 ∧ t1 = t2 := by
  have hd : s1.data ++ '.' :: t1.data = s2.data ++ '.' :: t2.data := by
    have hme := congrArg String.data h
    rwa [qualName_data, qualName_data] at hme
  obtain ⟨hs, hts⟩ := sep_split_inj '.' s1.data s2.data t1.data t2.data h1 h2 hd
  exact ⟨String.ext hs, String.ext hts⟩

/-- Unfolding `remoteQualNames` one server at a time. -/
theorem remoteQualNames_cons (c : ServerConn) (rest : List ServerConn) :
    remoteQualNames (c :: rest) =
      (toolNamesOf c).map (qualName c.name) ++ remoteQualNames rest := by
  simp [remoteQualNames, List.flatMap_cons]

/-- With pairwise-distinct dot-free server names and per-server distinct
tool names, the namespaced remote names are pairwise distinct. -/
theorem remoteQualNames_nodup : ∀ (servers : List ServerConn),
    (serverNamesOf servers).Nodup →
    (∀ c ∈ servers, ('.' : Char) ∉ c.name.data) →
    (∀ c ∈ servers, (toolNamesOf c).Nodup) →
    (remoteQualNames servers).Nodup := by
  intro servers
  induction servers with
  | nil =>
    intro _ _ _
    simp [remoteQualNames]
  | cons c rest ih =>
    intro hn hd ht
    have hdc : ('.' : Char) ∉ c.name.data := hd c (List.mem_cons_self c rest)
    have hn2 : (c.name :: serverNamesOf rest).Nodup := by
      simpa [serverNamesOf] using hn
    obtain ⟨hhead, htail⟩ := List.nodup_cons.mp hn2
    rw [remoteQualNames_cons, List.nodup_append]
    refine ⟨?_, ?_, ?_⟩
    · refine List.Nodup.map ?_ (ht c (List.mem_cons_self c rest))
      intro a b hab
      exact (qualName_inj hdc hdc hab).2
    · exact ih htail
        (fun x hx => hd x (List.mem_cons_of_mem c hx))
        (fun x hx => ht x (List.mem_cons_of_mem c hx))
    · intro x hx1 hx2
      obtain ⟨t, _, heq1⟩ := List.mem_map.mp hx1
      obtain ⟨c2, hc2, hmem2⟩ := List.mem_flatMap.mp hx2
      obtain ⟨t2, _, heq2⟩ := List.mem_map.mp hmem2
      have heq : qualName c.name t = qualName c2.name t2 := by
        rw [heq1, ← heq2]
      have hnames := (qualName_inj hdc
        (hd c2 (List.mem_cons_of_mem c hc2)) heq).1
      refine hhead ?_
      rw [hnames]
      exact List.mem_map_of_mem (fun x => x.name) hc2

/-- The merged catalog's names: the five built-in names followed by the
namespaced remote names. -/
theorem catalogNames_eq (servers : List ServerConn) :
    catalogNames servers = builtinToolNames ++ remoteQualNames servers := by
  rw [catalogNames, list_tools_merged, List.map_append]
  congr 1
  rw [List.map_flatMap]
  simp only [remoteQualNames, toolNamesOf, List.map_map]
  rfl

/-- Claim C6 counterexample: server `"a"` exposing tool `"b.c"` and
server `"a.b"` exposing tool `"c"` both put the qualified name
`"a.b.c"` into the merged catalog.  The collision is neither detected
nor rejected: the duplicate row is appended silently. -/
theorem catalog_collision :
    (catalogNames collidingServers).count "a.b.c" = 2 ∧
    ¬ (catalogNames collidingServers).Nodup := by
  exact ⟨by decide, by decide⟩

/-- Claim C6 (amended): local tools are listed first and head the merged
catalog; every remote tool is namespaced `"<serverName>.<toolName>"`.
Provided the server names are pairwise distinct (they are keys of a
Python dict) and dot-free, and each server's cached tool names are
distinct, every qualified name in the catalog is unique.  Without those
provisos a collision is possible, and it is appended rather than
rejected (see the counterexample). -/
theorem catalog_names_unique (servers : List ServerConn)
    (hn : (serverNamesOf servers).Nodup)
    (hd : ∀ c ∈ servers, ('.' : Char) ∉ c.name.data)
    (ht : ∀ c ∈ servers, (toolNamesOf c).Nodup) :
    (catalogNames servers).Nodup ∧
    (list_tools_merged servers).take builtinCatalog.length = builtinCatalog := by
  constructor
  · rw [catalogNames_eq, List.nodup_append]
    refine ⟨by decide, remoteQualNames_nodup servers hn hd ht, ?_⟩
    intro x hx1 hx2
    have hxdot : ('.' : Char) ∉ x.data := by
      have hall : ∀ b ∈ builtinToolNames, ('.' : Char) ∉ b.data := by decide
      exact hall x hx1
    obtain ⟨c, hc, hmem⟩ := List.mem_flatMap.mp hx2
    obtain ⟨t, ht2, heq⟩ := List.mem_map.mp hmem
    exact hxdot (heq ▸ dot_mem_qualName c.name t)
  · rw [list_tools_merged]
    exact List.take_left _ _

/-- Witness for `catalog_names_unique`: two well-named servers yield a
collision-free catalog. -/
theorem catalog_names_unique_witness :
    (serverNamesOf goodServers).Nodup ∧ (catalogNames goodServers).Nodup := by
  refine ⟨by decide, ?_⟩
  exact (catalog_names_unique goodServers (by decide) (by decide) (by decide)).1
